import Mathlib

/-!
Verification development for the orange-cli tool layer: a shallow embedding of
the three agent tools (bash execution, file read, file write) and of the
confirmation-gate answer handling, translated from the JavaScript sources
(`tool_execute-bash.mjs`, `tool_fs_read.mjs`, `tool_fs_write.mjs`, and the
`chat` session loop), together with theorems settling the specification's
claims about them.

Modelling conventions:
- JavaScript strings are Lean `String`s; array/string helpers (`slice`,
  `split`, `includes`, `replace`, `endsWith`) are re-implemented below with
  JavaScript's exact semantics (negative `slice` indices, first-occurrence
  `replace` with `$`-replacement patterns, `split` on a separator keeping
  empty fields).
- The filesystem state at the single path a tool call touches is a
  `FileState`; `fs.readFile`/`fs.access`/`fs.stat` behave on it as the node
  primitives do (an `err` state is a path whose existence check succeeds but
  whose read fails with the stored message).
- `async` functions that can reject are embedded as `Except`-valued bodies;
  the `try { ... } catch (error) { ... }` wrapper of each tool's `execute`
  is the explicit `match` that converts a thrown error into the returned
  value, so "an exception escaped `execute`" would be visible as an
  uncaught `Except.error`.
- The JavaScript regular-expression engine (used by `requiresAcceptance`'s
  fixed pattern list) is embedded as a small matcher for exactly the
  constructs those eleven patterns use: word boundaries, character classes,
  `+`, `*`, `?` groups and `.`; a `?`-group is translated by distributing
  the alternation (`X(G)?Y` matches iff `XGY` or `XY` matches somewhere).
- `new RegExp(pattern, 'i')` for an arbitrary user-supplied search pattern
  is kept abstract: the compiled case-insensitive per-line test is an
  oracle parameter `rx : String → String → Bool` of the read tool.
-/

/-! ## JavaScript primitives -/

/-- JavaScript truthiness of a possibly-missing string parameter:
`undefined` and the empty string are falsy. -/
def truthyS : Option String → Bool
  | none => false
  | some s => !s.isEmpty

/-- JavaScript truthiness of a possibly-missing integer parameter:
`undefined` and `0` are falsy. -/
def truthyI : Option Int → Bool
  | none => false
  | some i => i != 0

/-- `Array.prototype.slice(start, stop)`: negative indices count from the
end, and both indices are clamped to `[0, length]`. -/
def jsSlice (l : List String) (start stop : Int) : List String :=
  let n : Int := l.length
  let rs : Int := if start < 0 then max (n + start) 0 else min start n
  let re : Int := if stop < 0 then max (n + stop) 0 else min stop n
  (l.drop rs.toNat).take (re - rs).toNat

/-- `String.prototype.split(sep)` on character lists: always returns one
more field than there are separators, so the empty string yields `[[]]`. -/
def splitOnChar (sep : Char) : List Char → List (List Char)
  | [] => [[]]
  | c :: rest =>
    let r := splitOnChar sep rest
    if c == sep then [] :: r
    else
      match r with
      | [] => [[c]]
      | h :: t => (c :: h) :: t

/-- `content.split('\n')` as used by both file tools. -/
def jsSplitNl (s : String) : List String :=
  (splitOnChar '\n' s.data).map (fun cs => String.mk cs)

/-- `lines.join('\n')`. -/
def joinNl (ls : List String) : String :=
  String.intercalate "\n" ls

/-- `String.prototype.endsWith(suffix)`. -/
def jsEndsWith (s suffix : String) : Bool :=
  suffix.data.isSuffixOf s.data

/-- Whether `pre` is a leading substring of `s` (used to state that a tool
result is an error string, i.e. starts with `"Error"`). -/
def strStartsWith (s pre : String) : Bool :=
  pre.data.isPrefixOf s.data

/-- Index of the first occurrence of `need` in `hay` (`String.indexOf`):
the least position at which `need` is a prefix of the rest of `hay`. -/
def firstOccur? (hay need : List Char) : Option Nat :=
  if need.isPrefixOf hay then some 0
  else
    match hay with
    | [] => none
    | _ :: t => (firstOccur? t need).map (· + 1)

/-- `String.prototype.includes(needle)`. -/
def jsIncludes (hay need : String) : Bool :=
  (firstOccur? hay.data need.data).isSome

/-- Expansion of the JavaScript replacement patterns in the second argument
of `String.prototype.replace` with a string search pattern: `$$` is a
literal dollar, `$&` the matched substring `m`, a dollar followed by a
backquote the text `b` before the match, `$` followed by an apostrophe the
text `a` after it; every other character (and a `$` followed by anything
else) is copied verbatim. -/
def expandRepl (m b a : List Char) : List Char → List Char
  | [] => []
  | c :: rest =>
    if c == '$' then
      match rest with
      | [] => [c]
      | d :: rest2 =>
        if d == '$' then '$' :: expandRepl m b a rest2
        else if d == '&' then m ++ expandRepl m b a rest2
        else if d.toNat == 96 then b ++ expandRepl m b a rest2
        else if d.toNat == 39 then a ++ expandRepl m b a rest2
        else c :: expandRepl m b a (d :: rest2)
    else c :: expandRepl m b a rest

/-- `content.replace(old, new)` with string arguments: replaces only the
first occurrence of `old`, expanding replacement patterns in `new`. -/
def jsReplaceFirst (content old new : String) : String :=
  match firstOccur? content.data old.data with
  | none => content
  | some i =>
    let before := content.data.take i
    let after := content.data.drop (i + old.data.length)
    String.mk (before ++ expandRepl old.data before after new.data ++ after)

/-! ## Filesystem model -/

/-- State of the filesystem at the one path a tool call addresses.
`err msg` is a path that exists (so `fs.access` succeeds) but whose
`fs.readFile` rejects with message `msg`. -/
inductive FileState where
  | absent
  | file (content : String)
  | dir
  | err (msg : String)
deriving DecidableEq, Repr

/-- Whether `fs.access(path)` resolves. -/
def accessOk : FileState → Bool
  | .absent => false
  | _ => true

/-- `stats.isDirectory()`. -/
def isDir : FileState → Bool
  | .dir => true
  | _ => false

/-- `stats.isFile()` (an unreadable existing path is still a file). -/
def isFile : FileState → Bool
  | .file _ => true
  | .err _ => true
  | _ => false

/-- `fs.readFile(path, 'utf-8')` as an `Except`: rejects on a missing
path, a directory, or an unreadable file. -/
def readFileE : FileState → Except String String
  | .file c => .ok c
  | .err m => .error m
  | .absent => .error "ENOENT: no such file or directory"
  | .dir => .error "EISDIR: illegal operation on a directory, read"

/-! ## File write tool (`FsWriteTool.execute`) -/

/-- Parameters of `fs_write` (absent JSON fields are `none`). -/
structure WriteParams where
  command : String
  path : String
  file_text : Option String := none
  old_str : Option String := none
  new_str : Option String := none
  insert_line : Option Int := none

/-- Body of `FsWriteTool.execute` (the code inside its `try`): returns the
result string together with the new state of the file at `params.path`.
The four per-command presence checks use JavaScript truthiness, except the
explicit `params.insert_line === undefined` comparison; `fs.mkdir` of the
parent directory is a no-op in this single-path model. -/
def fsWriteBody (p : WriteParams) (st : FileState) : Except String (String × FileState) :=
  if p.command == "create" && !truthyS p.file_text then
    .ok ("Error: file_text parameter is required for create command", st)
  else if p.command == "str_replace" && (!truthyS p.old_str || !truthyS p.new_str) then
    .ok ("Error: old_str and new_str parameters are required for str_replace command", st)
  else if p.command == "insert" && (!truthyS p.new_str || p.insert_line.isNone) then
    .ok ("Error: new_str and insert_line parameters are required for insert command", st)
  else if p.command == "append" && !truthyS p.new_str then
    .ok ("Error: new_str parameter is required for append command", st)
  else if p.command == "create" then
    .ok ("File created successfully: " ++ p.path, .file (p.file_text.getD ""))
  else if p.command == "str_replace" then
    match readFileE st with
    | .error m => .ok ("Error: Could not read file " ++ p.path ++ ": " ++ m, st)
    | .ok content =>
      let old := p.old_str.getD ""
      if !jsIncludes content old then
        .ok ("Error: The string to replace was not found in " ++ p.path, st)
      else
        .ok ("File modified successfully: " ++ p.path,
             .file (jsReplaceFirst content old (p.new_str.getD "")))
  else if p.command == "insert" then
    match readFileE st with
    | .error m => .ok ("Error: Could not read file " ++ p.path ++ ": " ++ m, st)
    | .ok content =>
      let lines := jsSplitNl content
      let ins := p.insert_line.getD 0
      if ins < 0 || ins > (lines.length : Int) then
        .ok ("Error: Insert line " ++ toString ins ++ " is out of range (file has "
              ++ toString lines.length ++ " lines)", st)
      else
        .ok ("Content inserted successfully at line " ++ toString ins ++ " in " ++ p.path,
             .file (joinNl (lines.take ins.toNat ++ p.new_str.getD "" :: lines.drop ins.toNat)))
  else if p.command == "append" then
    let fileExists := accessOk st
    if !fileExists then
      .ok ("File created and content appended: " ++ p.path, .file (p.new_str.getD ""))
    else
      match readFileE st with
      | .error m => .ok ("Error: Could not read file " ++ p.path ++ ": " ++ m, st)
      | .ok content =>
        let toAppend := if jsEndsWith content "\n" then p.new_str.getD ""
                        else "\n" ++ p.new_str.getD ""
        .ok ("Content appended successfully to " ++ p.path, .file (content ++ toAppend))
  else
    .ok ("Error: Unsupported command " ++ p.command, st)

/-- `FsWriteTool.execute`: the body wrapped in the catch-all
`catch (error) { return "Error: " + error.message }`. -/
def fsWriteExecute (p : WriteParams) (st : FileState) : String × FileState :=
  match fsWriteBody p st with
  | .ok r => r
  | .error e => ("Error: " ++ e, st)

/-! ## File read tool (`FsReadTool.execute`) -/

/-- Parameters of `fs_read` (absent JSON fields are `none`). -/
structure ReadParams where
  path : String
  mode : String
  start_line : Option Int := none
  end_line : Option Int := none
  depth : Option Int := none
  pattern : Option String := none
  context_lines : Option Int := none

/-- The `Line` mode computation on the split lines: truthiness-checked
`start_line`/`end_line` (a missing or zero value throws, which the
caller's `catch` turns into an `Error:` string), negative indices resolved
as `lines.length + index + 1`, `Math.max(1, startLine)`, the
`endLine === -1 ? lines.length : Math.min(lines.length, endLine)` step,
then `lines.slice(startLine - 1, endLine).join('\n')`. -/
def lineModeE (s e : Option Int) (lines : List String) : Except String String :=
  if !truthyI s then
    .error "Line mode must include a \x22start_line\x22 key with a number"
  else if !truthyI e then
    .error "Line mode must include a \x22end_line\x22 key with a number"
  else
    let n : Int := lines.length
    let s0 := s.getD 0
    let e0 := e.getD 0
    let s1 := if s0 < 0 then n + s0 + 1 else s0
    let e1 := if e0 < 0 then n + e0 + 1 else e0
    let s2 := max 1 s1
    let e2 := if e1 == -1 then n else min n e1
    .ok (joinNl (jsSlice lines (s2 - 1) e2))

/-- Effective context window of `Search` mode: `params.context_lines || 2`
(so a missing or zero value becomes 2). -/
def effCtx (o : Option Int) : Int :=
  if truthyI o then o.getD 2 else 2

/-- Closed integer interval `[a, b]` as a list (the `for (j = a; j <= b; j++)`
loop of `Search` mode). -/
def intRangeIncl (a b : Int) : List Int :=
  (List.range (b + 1 - a).toNat).map (fun (k : Nat) => a + (k : Int))

/-- One context block of `Search` mode for a match on line index `i`
(0-based): the lines from `Math.max(0, i - c)` to
`Math.min(lines.length - 1, i + c)`, each rendered as
`prefix ++ (j+1) ++ ": " ++ line` with `"> "` on the matched line. -/
def searchBlock (c : Int) (lines : List String) (i : Nat) : List String :=
  let sc := max 0 ((i : Int) - c)
  let ec := min ((lines.length : Int) - 1) ((i : Int) + c)
  (intRangeIncl sc ec).map (fun j =>
    (if j == (i : Int) then "> " else "  ") ++ toString (j + 1) ++ ": "
      ++ lines.getD j.toNat "")

/-- The `Search` mode result-building loop: for each line index, if the
compiled regex `rxl` accepts the line, push a `--` separator when results
are already present and then the context block; finally join, or produce
the sentinel when nothing was pushed. -/
def searchMode (rxl : String → Bool) (c : Int) (lines : List String) : String :=
  let results := (List.range lines.length).foldl (fun acc i =>
    if rxl (lines.getD i "") then
      acc ++ (if acc.length > 0 then ["--"] else []) ++ searchBlock c lines i
    else acc) []
  if results.length > 0 then joinNl results else "No matches found"

/-- Body of `FsReadTool.execute` (the code inside its `try`).  `rx` is the
oracle for `new RegExp(pattern, 'i').test`, applied per line; `ex` is the
oracle for `execAsync` (used by `Directory` mode), whose rejection
propagates to the outer catch.  The `~`-expansion of `params.path` is
invisible here because the state of the addressed file is passed
directly. -/
def fsReadBody (p : ReadParams) (st : FileState)
    (rx : String → String → Bool) (ex : String → Except String String) :
    Except String String :=
  if !accessOk st then
    .ok ("Path \x27" ++ p.path ++ "\x27 does not exist yet")
  else if p.mode == "Directory" then
    if !isDir st then
      .ok ("Path \x27" ++ p.path ++ "\x27 is not a directory")
    else if truthyI p.depth then do
      let stdout ← ex ("find \x22" ++ p.path ++ "\x22 -type f -maxdepth "
                        ++ toString (p.depth.getD 0))
      .ok stdout
    else do
      let stdout ← ex ("ls -la \x22" ++ p.path ++ "\x22")
      .ok stdout
  else if !isFile st then
    .ok ("Path \x27" ++ p.path ++ "\x27 is not a file")
  else do
    let content ← readFileE st
    let lines := jsSplitNl content
    if p.mode == "Full" then
      .ok content
    else if p.mode == "Line" then
      lineModeE p.start_line p.end_line lines
    else if p.mode == "Search" then
      if !truthyS p.pattern then
        .ok "Search pattern is required for Search mode"
      else
        .ok (searchMode (rx (p.pattern.getD "")) (effCtx p.context_lines) lines)
    else
      .ok "Invalid mode specified"

/-- `FsReadTool.execute`: the body wrapped in the catch-all
`catch (error) { return "Error: " + error.message }`. -/
def fsReadExecute (p : ReadParams) (st : FileState)
    (rx : String → String → Bool) (ex : String → Except String String) : String :=
  match fsReadBody p st rx ex with
  | .ok s => s
  | .error e => "Error: " ++ e

/-! ## Bash execution tool (`ExecuteBashTool.execute`) -/

/-- Resolution value of a successful `execAsync`. -/
structure ExecOk where
  stdout : String
  stderr : String
deriving DecidableEq, Repr

/-- Rejection value of a failed `execAsync` (a node `Error` object with the
exec-specific fields; `none` models an `undefined` property). -/
structure JsExecError where
  stdout : Option String := none
  stderr : Option String := none
  message : String
  code : Option Int := none

/-- Result record of the bash tool. -/
structure BashResult where
  stdout : String
  stderr : String
  exit_status : String
deriving DecidableEq, Repr

/-- Body of `ExecuteBashTool.execute` (the code inside its `try`): await the
subprocess outcome `o` and build the success record. -/
def bashBody (o : Except JsExecError ExecOk) : Except JsExecError BashResult := do
  let r ← o
  .ok { stdout := r.stdout, stderr := r.stderr, exit_status := "0" }

/-- JavaScript `x || y` on a possibly-undefined string. -/
def jsOrElse (x : Option String) (y : String) : String :=
  match x with
  | some s => if s.isEmpty then y else s
  | none => y

/-- `error.code?.toString() || '1'`. -/
def jsCodeStr (c : Option Int) : String :=
  match c with
  | some v => toString v
  | none => "1"

/-- `ExecuteBashTool.execute`: the body with its catch handler, which
packages the rejection into a populated result record. -/
def bashExecute (o : Except JsExecError ExecOk) : BashResult :=
  match bashBody o with
  | .ok r => r
  | .error e =>
    { stdout := jsOrElse e.stdout ""
      stderr := jsOrElse e.stderr e.message
      exit_status := jsCodeStr e.code }

/-! ## Confirmation gate (`toolConfirmation` handler of the session loop) -/

/-- ASCII fragment of `String.prototype.toLowerCase` on one character:
`A`–`Z` (code points 65–90) shift down by 32, everything else is kept.
(The full Unicode mapping agrees with this one on the approval decision
below: no character outside `A`–`Z` lowercases to the ASCII letter `y`.) -/
def jsToLowerChar (c : Char) : Char :=
  if h : 65 ≤ c.toNat ∧ c.toNat ≤ 90 then
    Char.ofNatAux (c.toNat + 32) (Or.inl (by omega))
  else c

/-- `answer.toLowerCase()`. -/
def jsToLower (s : String) : String :=
  String.mk (s.data.map jsToLowerChar)

/-- The confirmation-gate decision of the `toolConfirmation` handler:
`agent.handleToolConfirmation(event.toolUseId, answer.toLowerCase() === 'y')`. -/
def confirmationApproves (answer : String) : Bool :=
  jsToLower answer == "y"

/-! ## `ExecuteBashTool.requiresAcceptance`: destructive-pattern regexes

The eleven patterns use only word boundaries, literal characters,
character classes (`\s`, `[rf]`, `.`), `+`, `*` and one optional group.
Each regex is embedded as a list of alternation-free item sequences
(`X(G)?Y` becomes the two sequences `XGY` and `XY`, which together accept
exactly the strings the original accepts somewhere); `test` is existence
of a match at some start position. -/

/-- A JavaScript word character (`\w` / the `\b` neighbourhood class):
ASCII letters, digits and underscore. -/
def isWordChar (c : Char) : Bool :=
  c.isAlpha || c.isDigit || c == '_'

/-- `\s`: the JavaScript whitespace class. -/
def isJsWs (c : Char) : Bool :=
  c == ' ' || c == '\t' || c == '\n' || c == '\r' || c.toNat == 11 ||
  c.toNat == 12 || c.toNat == 0xa0 || c.toNat == 0x1680 ||
  (0x2000 ≤ c.toNat && c.toNat ≤ 0x200a) || c.toNat == 0x2028 ||
  c.toNat == 0x2029 || c.toNat == 0x202f || c.toNat == 0x205f ||
  c.toNat == 0x3000 || c.toNat == 0xfeff

/-- `.` without the `s` flag: anything but a line terminator. -/
def isDot (c : Char) : Bool :=
  !(c == '\n' || c == '\r' || c.toNat == 0x2028 || c.toNat == 0x2029)

/-- One item of an alternation-free regex sequence. -/
inductive RItem where
  | bound
  | cls (p : Char → Bool)
  | plus (p : Char → Bool)
  | star (p : Char → Bool)

/-- Whether an optional character at a word-boundary edge is a word
character (`none` is the start/end of the string). -/
def isWordO : Option Char → Bool
  | none => false
  | some c => isWordChar c

/-- All states reachable from `(prev, s)` by consuming a (possibly empty)
run of characters satisfying `p`: the stop positions a `p*` can leave the
matcher in. -/
def starChain (p : Char → Bool) : Option Char → List Char → List (Option Char × List Char)
  | prev, [] => [(prev, [])]
  | prev, c :: s => (prev, c :: s) :: (if p c then starChain p (some c) s else [])

/-- Match an item sequence at the current position; `prev` is the character
just before it (for word boundaries).  Disjunction over all `*`-stop
positions gives exactly the backtracking existence semantics of the
JavaScript engine. -/
def matchItems : List RItem → Option Char → List Char → Bool
  | [], _, _ => true
  | .bound :: rest, prev, s =>
    (isWordO prev != isWordO s.head?) && matchItems rest prev s
  | .cls _ :: _, _, [] => false
  | .cls p :: rest, _, c :: s => p c && matchItems rest (some c) s
  | .plus _ :: _, _, [] => false
  | .plus p :: rest, _, c :: s =>
    p c && (starChain p (some c) s).any (fun t => matchItems rest t.1 t.2)
  | .star p :: rest, prev, s =>
    (starChain p prev s).any (fun t => matchItems rest t.1 t.2)

/-- Try the item sequence at every start position. -/
def searchFrom (its : List RItem) : Option Char → List Char → Bool
  | prev, [] => matchItems its prev []
  | prev, c :: s => matchItems its prev (c :: s) || searchFrom its (some c) s

/-- `regex.test(s)` for a union of alternation-free sequences. -/
def regexTest (alts : List (List RItem)) (s : String) : Bool :=
  alts.any (fun its => searchFrom its none s.data)

/-- A single literal character item. -/
def chr (c : Char) : RItem :=
  .cls (· == c)

/-- `\bword\b`. -/
def boundedWord (w : String) : List RItem :=
  .bound :: (w.data.map chr ++ [.bound])

/-- `/\brm\s+(-[rf]+\s+)?\//`: the two expansions of the optional group. -/
def reRmRooted : List (List RItem) :=
  [[.bound, chr 'r', chr 'm', .plus isJsWs,
    chr '-', .plus (fun c => c == 'r' || c == 'f'), .plus isJsWs, chr '/'],
   [.bound, chr 'r', chr 'm', .plus isJsWs, chr '/']]

/-- `/\bdd\b/`. -/
def reDd : List (List RItem) := [boundedWord "dd"]

/-- `/\bmkfs\b/`. -/
def reMkfs : List (List RItem) := [boundedWord "mkfs"]

/-- `/\bformat\b/`. -/
def reFmt : List (List RItem) := [boundedWord "format"]

/-- `/\bsudo\b/`. -/
def reSudo : List (List RItem) := [boundedWord "sudo"]

/-- `/\bchmod\b.*777/`. -/
def reChmod777 : List (List RItem) :=
  [boundedWord "chmod" ++ [.star isDot, chr '7', chr '7', chr '7']]

/-- `/\bshred\b/`. -/
def reShred : List (List RItem) := [boundedWord "shred"]

/-- `/\bwipe\b/`. -/
def reWipe : List (List RItem) := [boundedWord "wipe"]

/-- `/\bkill\b.*-9/`. -/
def reKill9 : List (List RItem) :=
  [boundedWord "kill" ++ [.star isDot, chr '-', chr '9']]

/-- `/\bpkill\b/`. -/
def rePkill : List (List RItem) := [boundedWord "pkill"]

/-- `/\btruncate\b/`. -/
def reTruncate : List (List RItem) := [boundedWord "truncate"]

/-- The `dangerousPatterns` array, in source order. -/
def dangerousPatterns : List (List (List RItem)) :=
  [reRmRooted, reDd, reMkfs, reFmt, reSudo, reChmod777,
   reShred, reWipe, reKill9, rePkill, reTruncate]

/-- `ExecuteBashTool.requiresAcceptance`:
`dangerousPatterns.some(pattern => pattern.test(command))`. -/
def requiresAcceptance (command : String) : Bool :=
  dangerousPatterns.any (fun p => regexTest p command)

/-! ## Claim-side (specification) definitions

These definitions transcribe the wording of spec claims, to be compared
with the embedded code above. -/

/-- The Line-mode algorithm exactly as the spec claim words it: negative
indices resolved as `lineCount + index + 1`, start clamped up to 1, end
clamped down to `lineCount`, and the inclusive 1-based line range joined
with newlines. -/
def lineModeClaim (s e : Int) (lines : List String) : String :=
  let n : Int := lines.length
  let s1 := if s < 0 then n + s + 1 else s
  let e1 := if e < 0 then n + e + 1 else e
  let s2 := max 1 s1
  let e2 := min n e1
  joinNl ((lines.drop (s2 - 1).toNat).take (e2 - s2 + 1).toNat)

/-- Indices of the lines the compiled search pattern accepts. -/
def matchIdxs (rxl : String → Bool) (lines : List String) : List Nat :=
  (List.range lines.length).filter (fun i => rxl (lines.getD i ""))

/-- Declarative description of the Search-mode output: the sentinel when
nothing matches, otherwise one context block per matching line with `--`
divider lines between consecutive blocks. -/
def searchSpecResult (rxl : String → Bool) (c : Int) (lines : List String) : String :=
  if matchIdxs rxl lines = [] then "No matches found"
  else joinNl (List.intercalate ["--"] ((matchIdxs rxl lines).map (searchBlock c lines)))

/-- Per-line behaviour of the compiled regex `/c/i`: accepts the lines
containing a `c` in either case (a concrete oracle for demonstrations). -/
def rxSubstrC : String → String → Bool :=
  fun _pat line => line.data.contains 'c' || line.data.contains 'C'

/-- Per-line behaviour of the compiled regex `/a/i`: accepts the lines
containing an `a` in either case. -/
def rxSubstrA : String → String → Bool :=
  fun _pat line => line.data.contains 'a' || line.data.contains 'A'

/-- An `execAsync` oracle for calls that never reach the subprocess. -/
def exNone : String → Except String String :=
  fun _ => .error "unused oracle"

/-- `fs_write` parameters for a `create` call. -/
def wpCreate (path : String) (t : Option String) : WriteParams :=
  { command := "create", path := path, file_text := t }

/-- `fs_write` parameters for a `str_replace` call. -/
def wpReplace (path : String) (o n : Option String) : WriteParams :=
  { command := "str_replace", path := path, old_str := o, new_str := n }

/-- `fs_write` parameters for an `insert` call. -/
def wpInsert (path : String) (n : Option String) (i : Option Int) : WriteParams :=
  { command := "insert", path := path, new_str := n, insert_line := i }

/-- `fs_write` parameters for an `append` call. -/
def wpAppend (path : String) (n : Option String) : WriteParams :=
  { command := "append", path := path, new_str := n }

/-- `fs_read` parameters for a `Line` call. -/
def rpLine (path : String) (s e : Option Int) : ReadParams :=
  { path := path, mode := "Line", start_line := s, end_line := e }

/-- `fs_read` parameters for a `Search` call. -/
def rpSearch (path : String) (pat : Option String) (c : Option Int) : ReadParams :=
  { path := path, mode := "Search", pattern := pat, context_lines := c }

/-! ## Theorems -/

/-- Claim C2: `requiresAcceptance` flags every listed destructive idiom —
rooted `rm`, `dd`, `mkfs`, `format`, `sudo`, `chmod … 777`, `shred`,
`wipe`, `kill … -9`, `pkill`, `truncate` — matched case-sensitively
against the raw command text, and does not flag the benign command `ls`
(nor an upper-cased `SUDO`, the matching being case-sensitive). -/
theorem c2_requires_acceptance_patterns :
    requiresAcceptance "rm -rf /tmp" = true
  ∧ requiresAcceptance "rm /etc/passwd" = true
  ∧ requiresAcceptance "dd if=/dev/zero of=/dev/sda" = true
  ∧ requiresAcceptance "mkfs.ext4 /dev/sda1" = true
  ∧ requiresAcceptance "format c:" = true
  ∧ requiresAcceptance "sudo reboot" = true
  ∧ requiresAcceptance "chmod -R 777 /etc" = true
  ∧ requiresAcceptance "shred secrets.txt" = true
  ∧ requiresAcceptance "wipe /dev/sda" = true
  ∧ requiresAcceptance "kill -9 1234" = true
  ∧ requiresAcceptance "pkill node" = true
  ∧ requiresAcceptance "truncate -s 0 log.txt" = true
  ∧ requiresAcceptance "ls" = false
  ∧ requiresAcceptance "SUDO reboot" = false := by
  decide

/-- Claim C3: no tool lets an exception escape `execute`.  Each tool's
`execute` is its `try`-body with the `catch` applied: whenever the body
completes, `execute` returns that value, and whenever the body throws,
`execute` still resolves, encoding the failure as an `Error:` string (file
tools) or as a populated stdout/stderr/exit_status record (bash tool). -/
theorem c3_exceptions_never_escape :
    (∀ (p : ReadParams) (st : FileState) (rx : String → String → Bool)
       (ex : String → Except String String),
       match fsReadBody p st rx ex with
       | .ok s => fsReadExecute p st rx ex = s
       | .error e => fsReadExecute p st rx ex = "Error: " ++ e)
  ∧ (∀ (p : WriteParams) (st : FileState),
       match fsWriteBody p st with
       | .ok r => fsWriteExecute p st = r
       | .error e => fsWriteExecute p st = ("Error: " ++ e, st))
  ∧ (∀ (o : Except JsExecError ExecOk),
       match bashBody o with
       | .ok r => bashExecute o = r
       | .error e => bashExecute o =
           { stdout := jsOrElse e.stdout ""
             stderr := jsOrElse e.stderr e.message
             exit_status := jsCodeStr e.code }) := by
  refine ⟨fun p st rx ex => ?_, fun p st => ?_, fun o => ?_⟩
  · cases h : fsReadBody p st rx ex <;> simp [fsReadExecute, h]
  · cases h : fsWriteBody p st <;> simp [fsWriteExecute, h]
  · cases h : bashBody o <;> simp [bashExecute, h]

/-- Two characters with the same code point are equal. -/
theorem char_eq_of_toNat_eq {c d : Char} (h : c.toNat = d.toNat) : c = d :=
  Char.ext (UInt32.ext h)

/-- The code point of a character built from a valid scalar value. -/
theorem toNat_ofNatAux {n : Nat} (h : n.isValidChar) : (Char.ofNatAux n h).toNat = n := by
  simp [Char.ofNatAux, Char.toNat, UInt32.toNat]

/-- A character lowercases (in the ASCII mapping the gate uses) to `y`
exactly when it is `y` or `Y`. -/
theorem jsToLowerChar_eq_y (c : Char) : jsToLowerChar c = 'y' ↔ c = 'y' ∨ c = 'Y' := by
  unfold jsToLowerChar
  by_cases h : 65 ≤ c.toNat ∧ c.toNat ≤ 90
  · rw [dif_pos h]
    constructor
    · intro h2
      have h3 := congrArg Char.toNat h2
      rw [toNat_ofNatAux] at h3
      have hy : ('y' : Char).toNat = 121 := by decide
      have hY : ('Y' : Char).toNat = 89 := by decide
      refine Or.inr (char_eq_of_toNat_eq ?_)
      omega
    · rintro (rfl | rfl)
      · exact absurd h (by decide)
      · refine char_eq_of_toNat_eq ?_
        rw [toNat_ofNatAux]
        decide
  · rw [dif_neg h]
    constructor
    · exact Or.inl
    · rintro (rfl | rfl)
      · rfl
      · exact absurd (by decide : (65 ≤ ('Y' : Char).toNat ∧ ('Y' : Char).toNat ≤ 90)) h

/-- Claim C9: the confirmation gate approves a pending tool call exactly
when the human's answer is the single character `y` or `Y`; every other
answer (the empty string included) denies. -/
theorem c9_confirmation_gate (a : String) :
    confirmationApproves a = true ↔ a = "y" ∨ a = "Y" := by
  obtain ⟨l⟩ := a
  simp only [confirmationApproves, jsToLower, beq_iff_eq, String.ext_iff]
  show l.map jsToLowerChar = ['y'] ↔ l = ['y'] ∨ l = ['Y']
  obtain _ | ⟨c, _ | ⟨d, t⟩⟩ := l <;> simp [jsToLowerChar_eq_y]

/-- Witness for C9: `Y` approves and the empty answer denies. -/
theorem c9_confirmation_gate_witness :
    confirmationApproves "Y" = true ∧ confirmationApproves "" = false :=
  ⟨(c9_confirmation_gate "Y").mpr (Or.inr rfl), by decide⟩

/-- The empty needle occurs in every haystack at position 0. -/
theorem firstOccur?_nil (l : List Char) : firstOccur? l [] = some 0 := by
  unfold firstOccur?
  simp

/-- A string keeps its leading substring when extended on the right. -/
theorem strStartsWith_append (s t pre : String) (h : strStartsWith s pre = true) :
    strStartsWith (s ++ t) pre = true := by
  simp only [strStartsWith, String.data_append, List.isPrefixOf_iff_prefix] at *
  exact h.trans (List.prefix_append _ _)

/-- Claim C10: JavaScript truthiness makes the write tool treat an empty
string as a missing parameter: `create` with empty `file_text`,
`str_replace` with empty `old_str` or `new_str`, and `append` with empty
`new_str` all return the corresponding required-parameter error and leave
the filesystem untouched (so `create` cannot produce an empty file), while
`insert` accepts `insert_line = 0` because that check compares against
`undefined` explicitly. -/
theorem c10_truthiness_pre_flight :
    (∀ (path : String) (st : FileState),
       fsWriteExecute (wpCreate path (some "")) st
         = ("Error: file_text parameter is required for create command", st))
  ∧ (∀ (path o : String) (st : FileState),
       fsWriteExecute (wpReplace path (some "") (some o)) st
         = ("Error: old_str and new_str parameters are required for str_replace command", st))
  ∧ (∀ (path o : String) (st : FileState),
       fsWriteExecute (wpReplace path (some o) (some "")) st
         = ("Error: old_str and new_str parameters are required for str_replace command", st))
  ∧ (∀ (path : String) (st : FileState),
       fsWriteExecute (wpAppend path (some "")) st
         = ("Error: new_str parameter is required for append command", st))
  ∧ (∀ (path content : String),
       fsWriteExecute (wpInsert path (some "x") (some 0)) (.file content)
         = ("Content inserted successfully at line 0 in " ++ path,
            .file (joinNl ("x" :: jsSplitNl content)))) := by
  refine ⟨fun path st => ?_, fun path o st => ?_, fun path o st => ?_,
          fun path st => ?_, fun path content => ?_⟩
  · simp [fsWriteExecute, fsWriteBody, wpCreate, truthyS,
      show ("" : String).isEmpty = true from rfl]
  · simp [fsWriteExecute, fsWriteBody, wpReplace, truthyS,
      show ("" : String).isEmpty = true from rfl]
  · simp [fsWriteExecute, fsWriteBody, wpReplace, truthyS,
      show ("" : String).isEmpty = true from rfl]
  · simp [fsWriteExecute, fsWriteBody, wpAppend, truthyS,
      show ("" : String).isEmpty = true from rfl]
  · have hlen : ¬(((jsSplitNl content).length : Int) < 0) := by omega
    simp [fsWriteExecute, fsWriteBody, wpInsert, truthyS, readFileE, hlen,
      show ("x" : String).isEmpty = false from rfl,
      show toString (0 : Int) = "0" from rfl]

/-- Claim C4: `str_replace` with an `old_str` that does not occur in the
file returns an error string and leaves the file content unmodified. -/
theorem c4_str_replace_not_found (path old new content : String)
    (h : jsIncludes content old = false) :
    strStartsWith (fsWriteExecute (wpReplace path (some old) (some new)) (.file content)).1
        "Error" = true
  ∧ (fsWriteExecute (wpReplace path (some old) (some new)) (.file content)).2
      = .file content := by
  have hold : old.isEmpty = false := by
    cases he : old.isEmpty
    · rfl
    · exfalso
      rw [String.isEmpty_iff] at he
      subst he
      simp [jsIncludes, firstOccur?_nil] at h
  by_cases hn : new.isEmpty = true
  · have heq : fsWriteExecute (wpReplace path (some old) (some new)) (.file content)
        = ("Error: old_str and new_str parameters are required for str_replace command",
           .file content) := by
      simp [fsWriteExecute, fsWriteBody, wpReplace, truthyS, hold, hn]
    rw [heq]
    refine ⟨?_, rfl⟩
    show strStartsWith
      "Error: old_str and new_str parameters are required for str_replace command" "Error" = true
    decide
  · have hn' : new.isEmpty = false := by
      cases hne : new.isEmpty
      · rfl
      · exact absurd hne hn
    have heq : fsWriteExecute (wpReplace path (some old) (some new)) (.file content)
        = ("Error: The string to replace was not found in " ++ path, .file content) := by
      simp [fsWriteExecute, fsWriteBody, wpReplace, truthyS, hold, hn', readFileE, h]
    rw [heq]
    refine ⟨?_, rfl⟩
    show strStartsWith
      ("Error: The string to replace was not found in " ++ path) "Error" = true
    exact strStartsWith_append _ path "Error" (by decide)

/-- Witness for C4: replacing the absent string `z` inside `hello` errors
and leaves the content `hello` in place. -/
theorem c4_str_replace_not_found_witness :
    strStartsWith (fsWriteExecute (wpReplace "/f" (some "z") (some "w")) (.file "hello")).1
        "Error" = true
  ∧ (fsWriteExecute (wpReplace "/f" (some "z") (some "w")) (.file "hello")).2
      = .file "hello" :=
  c4_str_replace_not_found "/f" "z" "w" "hello" (by decide)

/-- Claim C6: `append` creates a missing file with exactly `new_str`;
on an existing file it inserts exactly one newline separator when the
current content does not end with a newline, and none when it does. -/
theorem c6_append (path ns : String) (hns : ns.isEmpty = false) :
    fsWriteExecute (wpAppend path (some ns)) .absent
      = ("File created and content appended: " ++ path, .file ns)
  ∧ (∀ content : String, jsEndsWith content "\n" = false →
      fsWriteExecute (wpAppend path (some ns)) (.file content)
        = ("Content appended successfully to " ++ path, .file (content ++ "\n" ++ ns)))
  ∧ (∀ content : String, jsEndsWith content "\n" = true →
      fsWriteExecute (wpAppend path (some ns)) (.file content)
        = ("Content appended successfully to " ++ path, .file (content ++ ns))) := by
  refine ⟨?_, fun content hc => ?_, fun content hc => ?_⟩
  · simp [fsWriteExecute, fsWriteBody, wpAppend, truthyS, hns, accessOk]
  · simp [fsWriteExecute, fsWriteBody, wpAppend, truthyS, hns, accessOk, readFileE,
      hc, String.append_assoc]
  · simp [fsWriteExecute, fsWriteBody, wpAppend, truthyS, hns, accessOk, readFileE, hc]

/-- Witness for C6: appending `Z` to a missing file, to `ab` (no trailing
newline: one separator inserted) and to `ab\n` (none inserted). -/
theorem c6_append_witness :
    fsWriteExecute (wpAppend "/f" (some "Z")) .absent
      = ("File created and content appended: /f", .file "Z")
  ∧ fsWriteExecute (wpAppend "/f" (some "Z")) (.file "ab")
      = ("Content appended successfully to /f", .file "ab\nZ")
  ∧ fsWriteExecute (wpAppend "/f" (some "Z")) (.file "ab\n")
      = ("Content appended successfully to /f", .file "ab\nZ") := by
  have h := c6_append "/f" "Z" (by decide)
  refine ⟨h.1, ?_, ?_⟩
  · exact (h.2.1 "ab" (by decide)).trans (by decide)
  · exact (h.2.2 "ab\n" (by decide)).trans (by decide)

/-- Claim C7: `insert` at line 0 places `new_str` before the original
first line, at line `N` (the count of newline-split lines) after the last
line, and any `insert_line` outside `[0, N]` yields an error string and
leaves the file unchanged. -/
theorem c7_insert_bounds (path ns content : String) (ins : Int) (hns : ns.isEmpty = false) :
    fsWriteExecute (wpInsert path (some ns) (some 0)) (.file content)
      = ("Content inserted successfully at line 0 in " ++ path,
         .file (joinNl (ns :: jsSplitNl content)))
  ∧ fsWriteExecute (wpInsert path (some ns) (some ((jsSplitNl content).length : Int)))
        (.file content)
      = ("Content inserted successfully at line "
           ++ toString ((jsSplitNl content).length : Int) ++ " in " ++ path,
         .file (joinNl (jsSplitNl content ++ [ns])))
  ∧ (ins < 0 ∨ ins > ((jsSplitNl content).length : Int) →
      fsWriteExecute (wpInsert path (some ns) (some ins)) (.file content)
        = ("Error: Insert line " ++ toString ins ++ " is out of range (file has "
             ++ toString (jsSplitNl content).length ++ " lines)", .file content)) := by
  refine ⟨?_, ?_, fun hout => ?_⟩
  · have hlen : ¬(((jsSplitNl content).length : Int) < 0) := by omega
    simp [fsWriteExecute, fsWriteBody, wpInsert, truthyS, hns, readFileE, hlen,
      show toString (0 : Int) = "0" from rfl]
  · have h1 : ¬(((jsSplitNl content).length : Int) < 0) := by omega
    have h2 : ¬(((jsSplitNl content).length : Int) < ((jsSplitNl content).length : Int)) := by
      omega
    simp [fsWriteExecute, fsWriteBody, wpInsert, truthyS, hns, readFileE, h1, h2]
  · rcases hout with hneg | hbig
    · simp [fsWriteExecute, fsWriteBody, wpInsert, truthyS, hns, readFileE, hneg]
    · have h1 : ¬(ins < 0) := by omega
      simp [fsWriteExecute, fsWriteBody, wpInsert, truthyS, hns, readFileE, h1, hbig]

/-- Witness for C7: inserting `X` into the two-line file `a\nb` at lines
0, 2 and 5. -/
theorem c7_insert_bounds_witness :
    fsWriteExecute (wpInsert "/f" (some "X") (some 0)) (.file "a\nb")
      = ("Content inserted successfully at line 0 in /f", .file "X\na\nb")
  ∧ fsWriteExecute (wpInsert "/f" (some "X") (some 2)) (.file "a\nb")
      = ("Content inserted successfully at line 2 in /f", .file "a\nb\nX")
  ∧ fsWriteExecute (wpInsert "/f" (some "X") (some 5)) (.file "a\nb")
      = ("Error: Insert line 5 is out of range (file has 2 lines)", .file "a\nb") := by
  have h := c7_insert_bounds "/f" "X" "a\nb" 5 (by decide)
  refine ⟨h.1.trans (by decide), ?_, ?_⟩
  · have h2 := h.2.1
    rw [show (((jsSplitNl "a\nb").length : Int)) = 2 from by decide] at h2
    exact h2.trans (by decide)
  · exact (h.2.2 (by decide)).trans (by decide)

/-- JavaScript `slice` with a nonnegative start `a - 1` and an end already
inside `[0, length]` is the inclusive 1-based range `[a, b]`. -/
theorem jsSlice_eq_drop_take (l : List String) (a b : Int) (ha : 1 ≤ a) (hb0 : 0 ≤ b)
    (hbn : b ≤ (l.length : Int)) :
    jsSlice l (a - 1) b = (l.drop (a - 1).toNat).take (b - a + 1).toNat := by
  unfold jsSlice
  have h1 : ¬(a - 1 < 0) := by omega
  have h2 : ¬(b < 0) := by omega
  simp only [if_neg h1, if_neg h2, min_eq_left hbn]
  by_cases hc : a - 1 ≤ (l.length : Int)
  · rw [min_eq_left hc, show b - (a - 1) = b - a + 1 from by ring]
  · rw [min_eq_right (le_of_not_le hc)]
    rw [List.drop_eq_nil_of_le (by omega : l.length ≤ ((l.length : Int)).toNat),
        List.drop_eq_nil_of_le (by omega : l.length ≤ (a - 1).toNat)]
    simp

/-- On inputs where the resolved `end_line` is nonnegative, the embedded
Line-mode computation produces exactly the claim's clamped inclusive
range. -/
theorem lineModeE_eq_claim (lines : List String) (s e : Int) (hs : s ≠ 0) (he : e ≠ 0)
    (he1 : 0 ≤ (if e < 0 then (lines.length : Int) + e + 1 else e)) :
    lineModeE (some s) (some e) lines = .ok (lineModeClaim s e lines) := by
  have hts : truthyI (some s) = true := by simp [truthyI, hs]
  have hte : truthyI (some e) = true := by simp [truthyI, he]
  unfold lineModeE lineModeClaim
  rw [hts, hte]
  simp only [Bool.not_true, Bool.false_eq_true, if_false, Option.getD_some]
  set n : Int := (lines.length : Int) with hn
  set s1 : Int := if s < 0 then n + s + 1 else s with hs1
  set e1 : Int := if e < 0 then n + e + 1 else e with he1d
  have he1n : 0 ≤ e1 := he1
  have hne1 : (e1 == -1) = false := by
    simp only [beq_eq_false_iff_ne, ne_eq]
    omega
  rw [hne1]
  simp only [Bool.false_eq_true, if_false]
  have hconf : min n e1 ≤ n := min_le_left _ _
  have h0 : 0 ≤ min n e1 := le_min (by omega) he1n
  congr 1
  have := jsSlice_eq_drop_take lines (max 1 s1) (min n e1) (le_max_left _ _) h0 hconf
  exact congrArg joinNl this

/-- `fs_read` in `Line` mode on a readable file reaches the Line-mode
computation on the split lines. -/
theorem fsReadBody_line (path content : String) (s e : Option Int)
    (rx : String → String → Bool) (ex : String → Except String String) :
    fsReadBody (rpLine path s e) (.file content) rx ex
      = lineModeE s e (jsSplitNl content) := by
  simp [fsReadBody, rpLine, accessOk, isFile, readFileE]
  rfl

/-- Claim C1 (amended): in Line mode a negative `start_line`/`end_line` is
resolved as `lineCount + index + 1`, the start is clamped up to 1, the end
down to `lineCount`, and the result is the inclusive line range joined
with newlines — provided the resolved `end_line` is nonnegative.  (A
resolved `end_line` below 0 escapes the claimed clamping: exactly −1
selects the whole rest of the file, below −1 acts as an end-relative
`slice` offset; see the counterexample.) -/
theorem c1_line_mode_amended (path content : String) (s e : Int)
    (rx : String → String → Bool) (ex : String → Except String String)
    (hs : s ≠ 0) (he : e ≠ 0)
    (he1 : 0 ≤ (if e < 0 then ((jsSplitNl content).length : Int) + e + 1 else e)) :
    fsReadExecute (rpLine path (some s) (some e)) (.file content) rx ex
      = lineModeClaim s e (jsSplitNl content) := by
  unfold fsReadExecute
  rw [fsReadBody_line, lineModeE_eq_claim _ _ _ hs he he1]

/-- Witness for C1: `start_line = -3, end_line = -1` on a five-line file
returns exactly the last three lines. -/
theorem c1_line_mode_witness :
    fsReadExecute (rpLine "/f" (some (-3)) (some (-1))) (.file "a\nb\nc\nd\ne") rxSubstrC exNone
      = "c\nd\ne" := by
  have h := c1_line_mode_amended "/f" "a\nb\nc\nd\ne" (-3) (-1) rxSubstrC exNone
    (by decide) (by decide) (by decide)
  exact h.trans (by decide)

/-- Counterexample to C1 as stated: on the three-line file `a\nb\nc` with
`start_line = 1, end_line = -5`, the claimed algorithm (resolve negatives,
clamp to `[1, lineCount]`, join the inclusive range) yields the empty
range, but the tool returns the whole file, because the resolved end −1
is replaced by `lineCount` by the `endLine === -1` re-check. -/
theorem c1_line_mode_counterexample :
    fsReadExecute (rpLine "/f" (some 1) (some (-5))) (.file "a\nb\nc") rxSubstrC exNone
      = "a\nb\nc"
  ∧ lineModeClaim 1 (-5) (jsSplitNl "a\nb\nc") = ""
  ∧ ("a\nb\nc" : String) ≠ "" := by
  refine ⟨by decide, by decide, by decide⟩

/-- A replacement string without a dollar sign expands to itself. -/
theorem expandRepl_no_dollar (m b a : List Char) (l : List Char) (h : '$' ∉ l) :
    expandRepl m b a l = l := by
  induction l with
  | nil => rfl
  | cons c rest ih =>
    simp only [List.mem_cons, not_or] at h
    have hc : (c == '$') = false := by
      simp only [beq_eq_false_iff_ne, ne_eq]
      exact fun hx => h.1 hx.symm
    rw [expandRepl.eq_def]
    simp [hc, ih h.2]

/-- `firstOccur?` finds an actual occurrence and it is the first one. -/
theorem firstOccur?_spec (hay need : List Char) (i : Nat)
    (h : firstOccur? hay need = some i) :
    need.isPrefixOf (hay.drop i) = true
  ∧ ∀ j, j < i → need.isPrefixOf (hay.drop j) = false := by
  induction hay generalizing i with
  | nil =>
    rw [firstOccur?] at h
    by_cases hp : need.isPrefixOf ([] : List Char) = true
    · rw [if_pos hp] at h
      obtain rfl : (0 : Nat) = i := Option.some.inj h
      exact ⟨hp, fun j hj => absurd hj (by omega)⟩
    · rw [if_neg hp] at h
      exact absurd h (by simp)
  | cons c t ih =>
    rw [firstOccur?] at h
    by_cases hp : need.isPrefixOf (c :: t) = true
    · rw [if_pos hp] at h
      obtain rfl : (0 : Nat) = i := Option.some.inj h
      exact ⟨hp, fun j hj => absurd hj (by omega)⟩
    · rw [if_neg hp] at h
      simp only [Option.map_eq_some'] at h
      obtain ⟨i', hfo, rfl⟩ := h
      obtain ⟨h1, h2⟩ := ih i' hfo
      refine ⟨h1, fun j hj => ?_⟩
      match j with
      | 0 =>
        simpa using Bool.of_not_eq_true hp
      | j' + 1 =>
        exact h2 j' (by omega)

/-- Claim C5 (amended): when `old_str` occurs in the file and `new_str`
contains no `$` character, `str_replace` rewrites the file splicing
`new_str` verbatim in place of the first occurrence of `old_str` only —
the content before it, after it (including every later occurrence of
`old_str`) is unchanged.  (A `new_str` containing `$` goes through the
JavaScript replacement-pattern expansion of `String.prototype.replace`;
see the counterexample.) -/
theorem c5_str_replace_first (path old new content : String) (i : Nat)
    (hold : old.isEmpty = false) (hnew : new.isEmpty = false)
    (hfind : firstOccur? content.data old.data = some i)
    (hnd : '$' ∉ new.data) :
    fsWriteExecute (wpReplace path (some old) (some new)) (.file content)
      = ("File modified successfully: " ++ path,
         .file (String.mk (content.data.take i ++ new.data
                  ++ content.data.drop (i + old.data.length))))
  ∧ old.data.isPrefixOf (content.data.drop i) = true
  ∧ ∀ j, j < i → old.data.isPrefixOf (content.data.drop j) = false := by
  obtain ⟨hpre, hmin⟩ := firstOccur?_spec _ _ _ hfind
  refine ⟨?_, hpre, hmin⟩
  have hinc : jsIncludes content old = true := by simp [jsIncludes, hfind]
  simp [fsWriteExecute, fsWriteBody, wpReplace, truthyS, hold, hnew, readFileE, hinc,
    jsReplaceFirst, hfind, expandRepl_no_dollar _ _ _ _ hnd]

/-- Witness for C5: replacing the first `b` of `abcb` with `X` gives
`aXcb`, leaving the later `b` alone. -/
theorem c5_str_replace_first_witness :
    fsWriteExecute (wpReplace "/f" (some "b") (some "X")) (.file "abcb")
      = ("File modified successfully: /f", .file "aXcb") := by
  have h := c5_str_replace_first "/f" "b" "X" "abcb" 1
    (by decide) (by decide) (by decide) (by decide)
  exact h.1.trans (by decide)

/-- Counterexample to C5 as stated: `new_str` is not inserted verbatim
when it contains replacement patterns — replacing `a` by `$$` in `ab`
produces `$b` (the JavaScript `$$` escape), not the verbatim `$$b`. -/
theorem c5_str_replace_counterexample :
    fsWriteExecute (wpReplace "/f" (some "a") (some "$$")) (.file "ab")
      = ("File modified successfully: /f", .file "$b")
  ∧ FileState.file "$b" ≠ FileState.file "$$b" :=
  ⟨by decide, by decide⟩

/-- `intercalate` over at least two chunks peels off the first chunk and
one separator. -/
theorem intercalate_cons_of_ne_nil (s x : List String) (xs : List (List String))
    (h : xs ≠ []) :
    List.intercalate s (x :: xs) = x ++ s ++ List.intercalate s xs := by
  obtain ⟨y, ys, rfl⟩ := List.exists_cons_of_ne_nil h
  simp [List.intercalate, List.intersperse]

/-- `intercalate` starting with a nonempty chunk is nonempty. -/
theorem intercalate_ne_nil_of_head (s x : List String) (xs : List (List String))
    (hx : x ≠ []) :
    List.intercalate s (x :: xs) ≠ [] := by
  match xs with
  | [] => simpa [List.intercalate] using hx
  | y :: ys =>
    rw [intercalate_cons_of_ne_nil s x (y :: ys) (by simp)]
    simp [hx]

/-- Length of an inclusive integer range. -/
theorem intRangeIncl_length (a b : Int) :
    (intRangeIncl a b).length = (b + 1 - a).toNat := by
  unfold intRangeIncl
  rw [List.length_map, List.length_range]

/-- Length of a Search-mode context block, as an integer. -/
theorem searchBlock_length (c : Int) (lines : List String) (i : Nat)
    (hc : 1 ≤ c) (hi : i < lines.length) :
    ((searchBlock c lines i).length : Int)
      = min ((lines.length : Int) - 1) ((i : Int) + c) + 1 - max 0 ((i : Int) - c) := by
  unfold searchBlock
  rw [List.length_map, intRangeIncl_length, Int.toNat_of_nonneg (by omega)]

/-- With a positive context window every match inside the file produces a
nonempty block (it contains at least the matched line). -/
theorem searchBlock_ne_nil (c : Int) (lines : List String) (i : Nat)
    (hc : 1 ≤ c) (hi : i < lines.length) :
    searchBlock c lines i ≠ [] := by
  have h := searchBlock_length c lines i hc hi
  intro hnil
  rw [hnil] at h
  simp only [List.length_nil, Nat.cast_zero] at h
  omega

/-- The Search-mode result loop, on any index list and accumulator, builds
the accumulator followed by the `--`-separated blocks of the accepted
indices (`q` is the per-index line test and `B` the block builder). -/
theorem searchFold_eq (q : Nat → Bool) (B : Nat → List String)
    (idxs : List Nat) (acc : List String)
    (hbl : ∀ i ∈ idxs, q i = true → B i ≠ []) :
    idxs.foldl (fun acc i =>
      if q i then acc ++ (if acc.length > 0 then ["--"] else []) ++ B i else acc) acc
    = if idxs.filter q = [] then acc
      else acc ++ (if acc.length > 0 then ["--"] else [])
             ++ List.intercalate ["--"] ((idxs.filter q).map B) := by
  induction idxs generalizing acc with
  | nil => simp
  | cons i rest ih =>
    rw [List.foldl_cons]
    cases hq : q i with
    | false =>
      have hcond : ¬(q i = true) := by simp [hq]
      rw [if_neg Bool.false_ne_true]
      rw [List.filter_cons_of_neg hcond]
      exact ih acc (fun j hj => hbl j (List.mem_cons_of_mem i hj))
    | true =>
      rw [if_pos rfl]
      rw [List.filter_cons_of_pos hq]
      have hblock : B i ≠ [] := hbl i (List.mem_cons_self i rest) hq
      rw [ih _ (fun j hj => hbl j (List.mem_cons_of_mem i hj))]
      by_cases hrest : rest.filter q = []
      · rw [hrest, if_pos rfl, if_neg (List.cons_ne_nil i [])]
        simp [List.intercalate]
      · have hlen : (acc ++ (if acc.length > 0 then ["--"] else []) ++ B i).length > 0 := by
          simp only [List.length_append]
          have := List.length_pos.mpr hblock
          omega
        rw [if_neg hrest, if_pos hlen, if_neg (List.cons_ne_nil i (List.filter q rest))]
        rw [List.map_cons, intercalate_cons_of_ne_nil _ _ _ (by simpa using hrest)]
        simp [List.append_assoc]

/-- With a positive context window the Search-mode loop computes exactly
the declarative description: the sentinel when nothing matches, otherwise
`--`-separated context blocks of the matching lines. -/
theorem searchMode_eq_spec (rxl : String → Bool) (c : Int) (lines : List String)
    (hc : 1 ≤ c) :
    searchMode rxl c lines = searchSpecResult rxl c lines := by
  have hfold := searchFold_eq (fun i => rxl (lines.getD i "")) (searchBlock c lines)
    (List.range lines.length) []
    (fun i hi _hq => searchBlock_ne_nil c lines i hc (List.mem_range.mp hi))
  simp only [] at hfold
  unfold searchMode searchSpecResult matchIdxs
  rw [hfold]
  by_cases hfil : ((List.range lines.length).filter fun i => rxl (lines.getD i "")) = []
  · rw [if_pos hfil, if_pos hfil]
    simp
  · rw [if_neg hfil, if_neg hfil]
    obtain ⟨j, js, hjs⟩ := List.exists_cons_of_ne_nil hfil
    have hj : j ∈ (List.range lines.length).filter fun i => rxl (lines.getD i "") := by
      rw [hjs]; exact List.mem_cons_self j js
    have hjr := List.mem_range.mp (List.mem_of_mem_filter hj)
    have hne : List.intercalate ["--"]
        (((List.range lines.length).filter fun i => rxl (lines.getD i "")).map
          (searchBlock c lines)) ≠ [] := by
      rw [hjs, List.map_cons]
      exact intercalate_ne_nil_of_head _ _ _ (searchBlock_ne_nil c lines j hc hjr)
    rw [if_pos (by simpa [List.length_pos] using hne)]
    simp

/-- `fs_read` in `Search` mode on a readable file with a truthy pattern
reaches the Search-mode loop on the split lines. -/
theorem fsReadBody_search (path content pat : String) (ctx : Option Int)
    (rx : String → String → Bool) (ex : String → Except String String)
    (hpat : pat.isEmpty = false) :
    fsReadBody (rpSearch path (some pat) ctx) (.file content) rx ex
      = .ok (searchMode (rx pat) (effCtx ctx) (jsSplitNl content)) := by
  simp [fsReadBody, rpSearch, accessOk, isFile, readFileE, truthyS, hpat]
  rfl

/-- Claim C8 (amended): in Search mode, when the effective context window
`c` (`context_lines`, which JavaScript truthiness replaces by 2 when
missing *or zero*) is at least 1: a pattern matching no line returns
exactly `"No matches found"`; otherwise the output is the `--`-separated
sequence of context blocks, one per matching line, each block listing the
numbered lines from `i - c` to `i + c` clamped to the file with the
matched line prefixed by `>`; an unclamped block has exactly `2*c + 1`
lines and no block ever has more. -/
theorem c8_search_blocks (path content pat : String) (ctx : Option Int)
    (rx : String → String → Bool) (ex : String → Except String String)
    (hpat : pat.isEmpty = false) (hc : 1 ≤ effCtx ctx) :
    (matchIdxs (rx pat) (jsSplitNl content) = [] →
      fsReadExecute (rpSearch path (some pat) ctx) (.file content) rx ex
        = "No matches found")
  ∧ fsReadExecute (rpSearch path (some pat) ctx) (.file content) rx ex
      = searchSpecResult (rx pat) (effCtx ctx) (jsSplitNl content)
  ∧ (∀ i ∈ matchIdxs (rx pat) (jsSplitNl content),
       (searchBlock (effCtx ctx) (jsSplitNl content) i).length ≤ 2 * (effCtx ctx).toNat + 1
     ∧ (effCtx ctx ≤ (i : Int)
          ∧ (i : Int) + effCtx ctx ≤ ((jsSplitNl content).length : Int) - 1 →
        (searchBlock (effCtx ctx) (jsSplitNl content) i).length
          = 2 * (effCtx ctx).toNat + 1)) := by
  have hexec : fsReadExecute (rpSearch path (some pat) ctx) (.file content) rx ex
      = searchMode (rx pat) (effCtx ctx) (jsSplitNl content) := by
    unfold fsReadExecute
    rw [fsReadBody_search path content pat ctx rx ex hpat]
  have hspec := searchMode_eq_spec (rx pat) (effCtx ctx) (jsSplitNl content) hc
  refine ⟨?_, hexec.trans hspec, ?_⟩
  · intro hm
    rw [hexec, hspec]
    unfold searchSpecResult
    rw [if_pos hm]
  · intro i hi
    have hir : i < (jsSplitNl content).length := by
      unfold matchIdxs at hi
      exact List.mem_range.mp (List.mem_of_mem_filter hi)
    have hlen := searchBlock_length (effCtx ctx) (jsSplitNl content) i hc hir
    have hcast : ((effCtx ctx).toNat : Int) = effCtx ctx := Int.toNat_of_nonneg (by omega)
    constructor
    · omega
    · intro hunc
      omega

/-- Witness for C8: searching `a` (per-line test of `/a/i`) with
`context_lines = 1` in the five-line file `a b c d a` produces two
three-line-window blocks (clamped at the file edges) separated by `--`,
with the matched lines marked `>`. -/
theorem c8_search_blocks_witness :
    fsReadExecute (rpSearch "/f" (some "a") (some 1)) (.file "a\nb\nc\nd\na") rxSubstrA exNone
      = "> 1: a\n  2: b\n--\n  4: d\n> 5: a" := by
  have h := (c8_search_blocks "/f" "a\nb\nc\nd\na" "a" (some 1) rxSubstrA exNone
    (by decide) (by decide)).2.1
  exact h.trans (by decide)

/-- Counterexample to C8 as stated: with an explicit `context_lines = 0`
the block is not `2*0+1 = 1` line long — `context_lines || 2` treats 0 as
missing, so the single match in the middle of a five-line file yields a
five-line block instead of the claimed one-line block. -/
theorem c8_search_counterexample :
    fsReadExecute (rpSearch "/f" (some "c") (some 0)) (.file "a\nb\nc\nd\ne") rxSubstrC exNone
      = "  1: a\n  2: b\n> 3: c\n  4: d\n  5: e"
  ∧ ("  1: a\n  2: b\n> 3: c\n  4: d\n  5: e" : String) ≠ "> 3: c" :=
  ⟨by decide, by decide⟩
